import Mathlib

/-!
Verification of the ContractAnalyzer repository against its specification.

The repository consists of three Python files sharing one design:
  * `ContractAnalysisStreamlitBot.py`  (chunker `get_docs`, team-based analysis)
  * `ContractAnalysisWhatsappBot.py`   (chunker `create_agents.get_docs`, webhook handler)
  * `ContractAnalysisTelegramBot.py`   (sequential pipeline `analyze_contract_pipeline`,
                                        document handler `handle_document`)

Texts are embedded as `List Char` (Python `str` is a sequence of characters),
Python dicts as an inductive `PyVal`, the external reasoning collaborator as an
oracle function, and exception propagation as `Except`.
-/

namespace ContractAnalyzer

/-- Model of Python `range(start, stop, step)` for a non-negative step, written
with explicit fuel so that it is structurally recursive and computable.  For
`0 < step` a fuel of `stop - start` is always sufficient (each iteration
advances `start` by at least one).  Python raises `ValueError` on `step = 0`;
all results below assume `0 < step`. -/
def pyRangeUpAux : Nat → Nat → Nat → Nat → List Nat
  | 0, _, _, _ => []
  | fuel + 1, start, stop, step =>
    if start < stop then start :: pyRangeUpAux fuel (start + step) stop step else []

/-- Python `range(start, stop, step)` (ascending case). -/
def pyRangeUp (start stop step : Nat) : List Nat :=
  pyRangeUpAux (stop - start) start stop step

/-- Python dictionary / string values, used to model the chunk dictionaries
built by `get_docs` exactly as they appear in the source
(`{"content": ..., "meta_data": {"source": ...}}`). -/
inductive PyVal
  | str (s : List Char)
  | dict (fields : List (String × PyVal))

/-- The chunk dictionary literal from
`ContractAnalysisStreamlitBot.py` lines 46-48 and
`ContractAnalysisWhatsappBot.py` line 46:
`{"content": c, "meta_data": {"source": src}}`. -/
def mkChunk (content : List Char) (sourceName : String) : PyVal :=
  .dict [("content", .str content), ("meta_data", .dict [("source", .str sourceName.data)])]

/-- Keys of a Python dict value (empty for a non-dict). -/
def dictKeys : PyVal → List String
  | .dict fields => fields.map Prod.fst
  | .str _ => []

/-- Whether a Python dict value carries the given key. -/
def hasKey (v : PyVal) (k : String) : Bool :=
  match v with
  | .dict fields => fields.any (fun p => p.1 == k)
  | .str _ => false

/-- Lookup of a key in a Python dict value. -/
def dictGet : PyVal → String → Option PyVal
  | .dict fields, k => (fields.find? (fun p => p.1 == k)).map Prod.snd
  | .str _, _ => none

/-- The `content` entry of a chunk dictionary (empty when absent). -/
def contentOf (c : PyVal) : List Char :=
  match dictGet c "content" with
  | some (.str s) => s
  | _ => []

/-- The Chunker.  `ContractAnalysisStreamlitBot.py` lines 42-49 /
`ContractAnalysisWhatsappBot.py` lines 43-48:

    chunk_size = 2000
    for i in range(0, len(all_content), chunk_size):
        chunks.append({"content": all_content[i:i+chunk_size],
                       "meta_data": {"source": source_name}})

`all_content[i:i+chunk_size]` is `(all_content.drop i).take chunk_size` for
`0 ≤ i`.  Both variants close over a fixed `chunk_size = 2000`; the size is a
parameter here so the spec quantification over `S > 0` can be stated. -/
def get_docs (all_content : List Char) (sourceName : String) (chunk_size : Nat) : List PyVal :=
  (pyRangeUp 0 all_content.length chunk_size).map
    (fun i => mkChunk ((all_content.drop i).take chunk_size) sourceName)

/-- The delivery adapter splitting of the final report.
`ContractAnalysisTelegramBot.py` lines 162-163 /
`ContractAnalysisWhatsappBot.py` line 155:

    for i in range(0, len(result.content), 4000): ... result.content[i:i+4000]
-/
def splitMessage (content : List Char) : List (List Char) :=
  (pyRangeUp 0 content.length 4000).map (fun i => (content.drop i).take 4000)

section RangeLemmas

@[simp] lemma contentOf_mkChunk (c : List Char) (s : String) :
    contentOf (mkChunk c s) = c := rfl

@[simp] lemma dictKeys_mkChunk (c : List Char) (s : String) :
    dictKeys (mkChunk c s) = ["content", "meta_data"] := rfl

lemma pyRangeUpAux_congr {step : Nat} (hstep : 0 < step) :
    ∀ fuel fuel' start stop : Nat, stop - start ≤ fuel → stop - start ≤ fuel' →
      pyRangeUpAux fuel start stop step = pyRangeUpAux fuel' start stop step := by
  intro fuel
  induction fuel with
  | zero =>
    intro fuel' start stop h h'
    cases fuel' with
    | zero => rfl
    | succ f =>
      simp only [pyRangeUpAux]
      rw [if_neg (by omega)]
  | succ f ih =>
    intro fuel' start stop h h'
    cases fuel' with
    | zero =>
      simp only [pyRangeUpAux]
      rw [if_neg (by omega)]
    | succ f' =>
      simp only [pyRangeUpAux]
      by_cases hlt : start < stop
      · rw [if_pos hlt, if_pos hlt, ih f' (start + step) stop (by omega) (by omega)]
      · rw [if_neg hlt, if_neg hlt]

lemma pyRangeUpAux_shift :
    ∀ fuel start stop step k : Nat,
      pyRangeUpAux fuel (start + k) (stop + k) step
        = (pyRangeUpAux fuel start stop step).map (· + k) := by
  intro fuel
  induction fuel with
  | zero => intro start stop step k; rfl
  | succ f ih =>
    intro start stop step k
    simp only [pyRangeUpAux]
    by_cases hlt : start < stop
    · rw [if_pos (by omega), if_pos hlt]
      have : start + k + step = start + step + k := by omega
      rw [List.map_cons, this, ih]
    · rw [if_neg (by omega), if_neg hlt, List.map_nil]

/-- Normal form of the chunking index list: the indices produced by
`range(0, L, S)` are exactly `0, S, 2S, ...` with `⌈L/S⌉` entries. -/
lemma pyRangeUp_zero_eq {S : Nat} (hS : 0 < S) :
    ∀ L : Nat, pyRangeUp 0 L S = (List.range ((L + S - 1) / S)).map (· * S) := by
  intro L
  induction L using Nat.strong_induction_on with
  | _ L ih =>
    rcases Nat.eq_zero_or_pos L with hL | hL
    · subst hL
      have hc : (S - 1) / S = 0 := Nat.div_eq_of_lt (by omega)
      simp [pyRangeUp, pyRangeUpAux, hc]
    · have hcount : (L + S - 1) / S = (L - 1) / S + 1 := by
        have : L + S - 1 = (L - 1) + S := by omega
        rw [this, Nat.add_div_right _ hS]
      unfold pyRangeUp
      have hL0 : L - 0 = L := by omega
      rw [hL0]
      cases hfuel : L with
      | zero => omega
      | succ Lm =>
        simp only [pyRangeUpAux]
        rw [if_pos (by omega), show (0 : Nat) + S = S from by omega, ← hfuel]
        rcases Nat.lt_or_ge S L with hSL | hSL
        · -- more than one chunk: shift the tail by S and use the induction hypothesis
          have hshift : pyRangeUpAux Lm S L S
              = (pyRangeUpAux Lm 0 (L - S) S).map (· + S) := by
            have h1 : pyRangeUpAux Lm (0 + S) ((L - S) + S) S
                = (pyRangeUpAux Lm 0 (L - S) S).map (· + S) := pyRangeUpAux_shift ..
            have h2 : (L - S) + S = L := by omega
            simpa [h2] using h1
          have hfuelok : pyRangeUpAux Lm 0 (L - S) S = pyRangeUp 0 (L - S) S := by
            unfold pyRangeUp
            exact pyRangeUpAux_congr hS Lm ((L - S) - 0) 0 (L - S) (by omega) (by omega)
          have hrec := ih (L - S) (by omega)
          have htailcount : ((L - S) + S - 1) / S = (L - 1) / S := by
            congr 1
            omega
          rw [hshift, hfuelok, hrec, htailcount, hcount, List.range_succ_eq_map]
          simp only [List.map_cons, List.map_map, Nat.zero_mul]
          congr 1
          apply List.map_congr_left
          intro a _
          simp [Function.comp, Nat.succ_mul]
        · -- a single (possibly short) chunk
          have htail : pyRangeUpAux Lm S L S = [] := by
            cases Lm with
            | zero => rfl
            | succ m =>
              simp only [pyRangeUpAux]
              rw [if_neg (by omega)]
          have hone : (L + S - 1) / S = 1 := by
            apply Nat.div_eq_of_lt_le
            · omega
            · omega
          rw [htail, hcount]
          have : (L - 1) / S = 0 := Nat.div_eq_of_lt (by omega)
          rw [this, List.range_succ_eq_map]
          simp

lemma length_pyRangeUp {S : Nat} (hS : 0 < S) (L : Nat) :
    (pyRangeUp 0 L S).length = (L + S - 1) / S := by
  rw [pyRangeUp_zero_eq hS]
  simp

end RangeLemmas

/-- The slice list underlying both `get_docs` (with `S = 2000`) and the
delivery splitting (with `S = 4000`): `[text[0:S], text[S:2S], ...]`. -/
def pySlices (S : Nat) (text : List Char) : List (List Char) :=
  (pyRangeUp 0 text.length S).map (fun i => (text.drop i).take S)

section SliceLemmas

lemma splitMessage_eq_pySlices (content : List Char) :
    splitMessage content = pySlices 4000 content := rfl

lemma pySlices_eq_range {S : Nat} (hS : 0 < S) (text : List Char) :
    pySlices S text
      = (List.range ((text.length + S - 1) / S)).map
          (fun k => (text.drop (k * S)).take S) := by
  unfold pySlices
  rw [pyRangeUp_zero_eq hS, List.map_map]
  rfl

@[simp] lemma pySlices_nil (S : Nat) : pySlices S [] = [] := rfl

lemma pySlices_cons {S : Nat} (hS : 0 < S) {text : List Char} (ht : text ≠ []) :
    pySlices S text = text.take S :: pySlices S (text.drop S) := by
  have hL : 0 < text.length := List.length_pos.mpr ht
  have hcount : (text.length + S - 1) / S = (text.length - 1) / S + 1 := by
    have h1 : text.length + S - 1 = (text.length - 1) + S := by omega
    rw [h1, Nat.add_div_right _ hS]
  have htailcount : ((text.drop S).length + S - 1) / S = (text.length - 1) / S := by
    rw [List.length_drop]
    rcases Nat.lt_or_ge S text.length with h | h
    · congr 1
      omega
    · have hz : text.length - S = 0 := by omega
      rw [hz, Nat.div_eq_of_lt (by omega), Nat.div_eq_of_lt (by omega)]
  rw [pySlices_eq_range hS, pySlices_eq_range hS, hcount, htailcount,
    List.range_succ_eq_map, List.map_cons, List.map_map]
  simp only [Nat.zero_mul, List.drop_zero]
  congr 1
  apply List.map_congr_left
  intro k _
  simp only [Function.comp_apply]
  rw [List.drop_drop]
  congr 2
  rw [Nat.succ_mul]
  omega

lemma pySlices_join {S : Nat} (hS : 0 < S) (text : List Char) :
    (pySlices S text).flatten = text := by
  suffices h : ∀ n (t : List Char), t.length ≤ n → (pySlices S t).flatten = t from
    h text.length text le_rfl
  intro n
  induction n with
  | zero =>
    intro t h
    have : t = [] := List.length_eq_zero.mp (by omega)
    subst this
    rfl
  | succ n ih =>
    intro t h
    by_cases ht : t = []
    · subst ht; rfl
    · rw [pySlices_cons hS ht, List.flatten_cons,
        ih (t.drop S) (by rw [List.length_drop]; omega), List.take_append_drop]

lemma pySlices_length_le (S : Nat) (text : List Char) :
    ∀ c ∈ pySlices S text, c.length ≤ S := by
  intro c hc
  unfold pySlices at hc
  rcases List.mem_map.mp hc with ⟨i, _, rfl⟩
  rw [List.length_take]
  exact Nat.min_le_left _ _

lemma pySlices_dropLast {S : Nat} (hS : 0 < S) (text : List Char) :
    ∀ c ∈ (pySlices S text).dropLast, c.length = S := by
  suffices h : ∀ n (t : List Char), t.length ≤ n →
      ∀ c ∈ (pySlices S t).dropLast, c.length = S from h text.length text le_rfl
  intro n
  induction n with
  | zero =>
    intro t h c hc
    have : t = [] := List.length_eq_zero.mp (by omega)
    subst this
    simp at hc
  | succ n ih =>
    intro t h c hc
    by_cases ht : t = []
    · subst ht; simp at hc
    · rw [pySlices_cons hS ht] at hc
      by_cases htd : t.drop S = []
      · rw [htd, pySlices_nil] at hc
        simp at hc
      · have htne : pySlices S (t.drop S) ≠ [] := by
          rw [pySlices_cons hS htd]
          simp
        rw [List.dropLast_cons_of_ne_nil htne, List.mem_cons] at hc
        rcases hc with hc | hc
        · have hdl : (t.drop S).length ≠ 0 := fun h0 => htd (List.length_eq_zero.mp h0)
          rw [List.length_drop] at hdl
          subst hc
          rw [List.length_take]
          omega
        · exact ih (t.drop S) (by rw [List.length_drop]; omega) c hc

lemma get_docs_map_content (D : List Char) (src : String) (S : Nat) :
    (get_docs D src S).map contentOf = pySlices S D := by
  unfold get_docs pySlices
  rw [List.map_map]
  apply List.map_congr_left
  intro i _
  simp [Function.comp]

lemma get_docs_length {S : Nat} (hS : 0 < S) (D : List Char) (src : String) :
    (get_docs D src S).length = (D.length + S - 1) / S := by
  unfold get_docs
  rw [List.length_map, length_pyRangeUp hS]

/-- Helper: `dropLast` commutes with `map`. -/
lemma map_dropLast {α β : Type} (f : α → β) : ∀ l : List α, (l.map f).dropLast = l.dropLast.map f
  | [] => rfl
  | [_] => rfl
  | a :: b :: t => by
    rw [List.map_cons, List.map_cons, List.dropLast_cons₂, List.dropLast_cons₂]
    exact congrArg (f a :: ·) (map_dropLast f (b :: t))

end SliceLemmas

/-! ## Python string helpers -/

/-- The characters stripped by Python `str.strip()` (ASCII whitespace; Python
additionally strips some rarer Unicode whitespace, which never occurs here). -/
def pyIsSpace (c : Char) : Bool :=
  c == ' ' || c == '\t' || c == '\n' || c == '\r' || c == '\x0b' || c == '\x0c'

/-- Python `str.strip()`. -/
def pyStrip (l : List Char) : List Char :=
  ((l.dropWhile pyIsSpace).reverse.dropWhile pyIsSpace).reverse

/-- A line matched by `textwrap`s `^[ \t]+$` pattern (at least one character,
all spaces or tabs). -/
def lineIsWS (l : List Char) : Bool :=
  !l.isEmpty && l.all (fun c => c == ' ' || c == '\t')

/-- Leading run of spaces and tabs of a line. -/
def leadingWS (l : List Char) : List Char :=
  l.takeWhile (fun c => c == ' ' || c == '\t')

/-- Longest common prefix of two character lists. -/
def commonPrefix2 : List Char → List Char → List Char
  | a :: as, b :: bs => if a = b then a :: commonPrefix2 as bs else []
  | _, _ => []

/-- Python `textwrap.dedent`: whitespace-only lines are emptied, the longest
common leading space/tab run of the remaining non-empty lines is computed, and
that margin is removed from the start of every line that begins with it. -/
def dedent (text : List Char) : List Char :=
  let lines := (text.splitOn '\n').map (fun l => if lineIsWS l then [] else l)
  let margin := match (lines.filter (fun l => !l.isEmpty)).map leadingWS with
    | [] => []
    | m :: ms => ms.foldl commonPrefix2 m
  List.intercalate ['\n']
    (lines.map (fun l => if margin.isPrefixOf l then l.drop margin.length else l))

/-! ## The Telegram pipeline (`ContractAnalysisTelegramBot.py`)

The four reasoning-collaborator callers of `analyze_contract_pipeline`
(lines 37-132): the Structure agent, the Legal (risk) agent, the Negotiation
agent and the Team-manager merge.  The external reasoning collaborator
(`Agent.arun` / `Team.arun`) is modelled as an oracle mapping the stage, the
instruction text and the run input to either a response or a raised error;
a timeout is a raised error.  The instruction templates below are transcribed
verbatim from the source (the Python source stores them as
`dedent(f"""...""")` literals; `\u00e2\u20ac\u2122` is a mojibake sequence
present in the file itself). -/

inductive StageName
  | structureStage
  | legalStage
  | negotiationStage
  | teamManager
deriving DecidableEq, Repr

/-- One reasoning-collaborator call record: which stage called, with which
instruction text and which run input. -/
structure Invocation where
  stage : StageName
  instructions : List Char
  input : List Char
deriving DecidableEq, Repr

/-- The external reasoning collaborator: stage, instruction text and input to
response (`.ok`) or raised error / timeout (`.error`). -/
def Oracle : Type :=
  StageName → List Char → List Char → Except (List Char) (List Char)

def structureTemplate : String := "\n            Behave as a specialist in contract organization and document structuring.  \n            Carefully review the entire contract to assess its overall structure and logical flow.  \n            Identify missing, unclear, repetitive, or disordered sections and clauses.  \n            Return your findings in structured bullet points, highlighting issues clearly.  \n            If necessary, produce a clean, well-organized markdown outline suggesting an improved contract structure.  \n            Focus strictly on clarity, readability, and logical sequencing without providing legal advice.\n        "

def legalTemplatePre : String := "\n           Act as a legal framework analyst with a focus on identifying potential risks, ambiguities, and key legal principles within the contract.  \n            Carefully examine each section and clause to detect unclear, inconsistent, or risky language.  \n            For every observation or identified risk, quote the exact clause, sentence, or paragraph from the contract that supports it.  \n            Clearly indicate the section title, heading, or paragraph number for context.  \n            Present your findings in a structured, factual, and concise manner, ensuring each point is directly supported by the contract text.  \n            Avoid giving general legal advice; focus strictly on what is explicitly written in the contract\n\n            Structured Content:\n            "

def legalTemplatePost : String := "\n        "

def negotiationTemplatePre : String := "\n            Act as a contract negotiation strategist focused on identifying negotiable clauses and potential imbalances between the parties.  \n            Carefully review the contract to locate provisions that may be unfair, overly restrictive, or commonly subject to negotiation.  \n            For every observation, quote the exact clause, sentence, or paragraph from the contract that supports your point.  \n            Explain briefly why each quoted clause may be negotiable or require adjustment.  \n            Propose a clear and concrete alternative wording or counter-proposal for each identified clause.  \n            Present your findings in a structured, practical, and concise format, grounded strictly in the contract\u00e2\u20ac\u2122s language.\n                  \n            Structured Content:\n            "

def negotiationTemplateMid : String := "\n\n            Legal Analysis:\n            "

def negotiationTemplatePost : String := "\n        "

def teamTemplate : String := "\n            Merge structured outline, legal analysis, and negotiation points\n            into a single clean report. Preserve quoted clauses and remove duplicates.\n        "

/-- Instructions of the Structure agent (no dependency content embedded). -/
def structureInstructions : List Char := dedent structureTemplate.data

/-- Instructions of the Legal agent: the f-string embeds
`structured_result.content` before `dedent` is applied. -/
def legalInstructions (structured : List Char) : List Char :=
  dedent (legalTemplatePre.data ++ structured ++ legalTemplatePost.data)

/-- Instructions of the Negotiation agent: the f-string embeds
`structured_result.content` and `legal_result.content` before `dedent`. -/
def negotiationInstructions (structured legal : List Char) : List Char :=
  dedent (negotiationTemplatePre.data ++ structured ++ negotiationTemplateMid.data
    ++ legal ++ negotiationTemplatePost.data)

/-- Instructions of the Team manager. -/
def teamInstructions : List Char := dedent teamTemplate.data

/-- Input of the Negotiation call:
`structured_result.content + "\n" + legal_result.content` (line 111). -/
def negotiationInput (structured legal : List Char) : List Char :=
  structured ++ "\n".data ++ legal

/-- Input of the Team-manager call (lines 126-131):
`f"Merge the following outputs:\n{combined_text}"` with
`combined_text = "\n\n".join([structured, legal, negotiation])`. -/
def mergeInput (structured legal negotiation : List Char) : List Char :=
  "Merge the following outputs:\n".data
    ++ List.intercalate "\n\n".data [structured, legal, negotiation]

def invStructure (pdf_text : List Char) : Invocation :=
  ⟨.structureStage, structureInstructions, pdf_text⟩

def invLegal (structured : List Char) : Invocation :=
  ⟨.legalStage, legalInstructions structured, structured⟩

def invNegotiation (structured legal : List Char) : Invocation :=
  ⟨.negotiationStage, negotiationInstructions structured legal,
    negotiationInput structured legal⟩

def invTeam (structured legal negotiation : List Char) : Invocation :=
  ⟨.teamManager, teamInstructions, mergeInput structured legal negotiation⟩

/-- `analyze_contract_pipeline` (lines 37-132).  Each `await agent.arun(...)`
is one oracle call; a raised exception propagates out immediately (`Except`
short-circuit), so later stages are not reached.  The second component is the
ordered list of reasoning-collaborator calls actually made (the invocation
log). -/
def analyze_contract_pipeline (oracle : Oracle) (pdf_text : List Char) :
    Except (List Char) (List Char) × List Invocation :=
  match oracle .structureStage structureInstructions pdf_text with
  | .error e => (.error e, [invStructure pdf_text])
  | .ok structured =>
    match oracle .legalStage (legalInstructions structured) structured with
    | .error e => (.error e, [invStructure pdf_text, invLegal structured])
    | .ok legal =>
      match oracle .negotiationStage (negotiationInstructions structured legal)
          (negotiationInput structured legal) with
      | .error e =>
        (.error e, [invStructure pdf_text, invLegal structured, invNegotiation structured legal])
      | .ok negotiation =>
        (oracle .teamManager teamInstructions (mergeInput structured legal negotiation),
          [invStructure pdf_text, invLegal structured, invNegotiation structured legal,
           invTeam structured legal negotiation])

/-- The declared dependency sets of the pipeline stages (spec section 4.2:
Risk depends on Structure, Negotiation on Structure and Risk, Consolidation on
all three). -/
def deps : StageName → List StageName
  | .structureStage => []
  | .legalStage => [.structureStage]
  | .negotiationStage => [.structureStage, .legalStage]
  | .teamManager => [.structureStage, .legalStage, .negotiationStage]

/-- The messages the Telegram handler sends after the pipeline finishes
(`handle_document`, lines 159-166): the report in 4000-character segments on
success, a single `"Failed to analyze pdf: {e}"` message when the pipeline
raised. -/
def telegramDeliver (oracle : Oracle) (pdf_text : List Char) : List (List Char) :=
  match (analyze_contract_pipeline oracle pdf_text).1 with
  | .ok content => splitMessage content
  | .error e => ["Failed to analyze pdf: ".data ++ e]

/-! ## Channel handlers -/

/-- Observable actions of a channel handler: an outgoing message, a PDF read
(`reader.read`), a pipeline stage call, or a framework-orchestrated
`Team.arun` call (Streamlit / WhatsApp variants). -/
inductive Event
  | reply (msg : List Char)
  | pdfRead
  | stageCall (s : StageName)
  | teamRun
deriving DecidableEq, Repr

/-- Telegram `handle_document` (lines 139-166) for a message carrying a file
named `fileName`; `extracted` is the text the PDF reader returns for the
attached bytes.  The file-name guard (line 144) runs before any download or
read. -/
def telegramHandleDocument (oracle : Oracle) (fileName extracted : List Char) :
    List Event :=
  if ".pdf".data.isSuffixOf (fileName.map Char.toLower) then
    .reply "Downloading and reading PDF...".data ::
    .pdfRead ::
    .reply "Running pipeline analysis...".data ::
    ((analyze_contract_pipeline oracle extracted).2.map (fun inv => .stageCall inv.stage)
      ++ (telegramDeliver oracle extracted).map .reply)
  else
    [.reply "Please upload a PDF file.".data]

/-- Telegram message dispatch: text-only messages go to `handle_text`
(line 135-137, a fixed reply), messages with an attached document to
`handle_document`. -/
def telegramReceive (oracle : Oracle) (fileName : Option (List Char))
    (extracted : List Char) : List Event :=
  match fileName with
  | none => [.reply "Please upload a PDF contract for analysis.".data]
  | some name => telegramHandleDocument oracle name extracted

/-- WhatsApp reply payload (`receive_message`, lines 152-160): the report in
4000-character segments on success, a single
`"Failed to analyze contract: {e}"` message when the team run raised. -/
def whatsappDeliver (teamResult : Except (List Char) (List Char)) : List (List Char) :=
  match teamResult with
  | .ok content => splitMessage content
  | .error e => ["Failed to analyze contract: ".data ++ e]

/-- WhatsApp `receive_message` (lines 133-163).  `teamResult` is the outcome
of the framework-orchestrated `team.arun` call; `hasFileBytes` is the Python
truthiness of `payload.get("file_bytes")`.  The guard on line 142 is
`file_bytes and file_name and file_name.lower().endswith(".pdf")`. -/
def whatsappReceive (teamResult : Except (List Char) (List Char))
    (fileName : Option (List Char)) (hasFileBytes : Bool) (extracted : List Char) :
    List Event :=
  if hasFileBytes
      && (match fileName with
          | some n => !n.isEmpty && ".pdf".data.isSuffixOf (n.map Char.toLower)
          | none => false) then
    .pdfRead ::
      (if (pyStrip extracted).isEmpty then
        [.reply "Could not extract text from PDF!".data]
      else
        .teamRun :: (whatsappDeliver teamResult).map .reply)
  else
    [.reply "Please send a PDF contract for analysis.".data]

/-- Streamlit script run after a PDF upload (`ContractAnalysisStreamlitBot.py`
lines 29-39 and 132-138): on whitespace-only extracted text `st.error` is
shown and `st.stop()` halts the script before any agent exists; otherwise the
analysis (one framework-orchestrated `team_manager.arun`) runs when the button
is pressed.  A raised team error propagates, so no report is shown. -/
def streamlitRun (teamResult : Except (List Char) (List Char))
    (extracted : List Char) (buttonPressed : Bool) : List Event :=
  if (pyStrip extracted).isEmpty then
    [.reply "There is no content in the contract!".data]
  else
    .reply "Contract loaded successfully".data ::
      (if buttonPressed then
        match teamResult with
        | .ok content => [.teamRun, .reply content]
        | .error _ => [.teamRun]
      else [])


section PipelineLemmas

@[simp] lemma invStructure_stage (t : List Char) :
    (invStructure t).stage = .structureStage := rfl

@[simp] lemma invLegal_stage (s : List Char) :
    (invLegal s).stage = .legalStage := rfl

@[simp] lemma invNegotiation_stage (s l : List Char) :
    (invNegotiation s l).stage = .negotiationStage := rfl

@[simp] lemma invTeam_stage (s l n : List Char) :
    (invTeam s l n).stage = .teamManager := rfl

/-- Exhaustive description of a pipeline run: exactly one of the four
short-circuit shapes occurs, and in each the result and the invocation log are
fully determined by the oracle answers. -/
lemma pipeline_spec (oracle : Oracle) (text : List Char) :
    (∃ e, oracle .structureStage structureInstructions text = .error e ∧
      analyze_contract_pipeline oracle text = (.error e, [invStructure text])) ∨
    (∃ s, oracle .structureStage structureInstructions text = .ok s ∧
      ((∃ e, oracle .legalStage (legalInstructions s) s = .error e ∧
        analyze_contract_pipeline oracle text
          = (.error e, [invStructure text, invLegal s])) ∨
      (∃ l, oracle .legalStage (legalInstructions s) s = .ok l ∧
        ((∃ e, oracle .negotiationStage (negotiationInstructions s l)
              (negotiationInput s l) = .error e ∧
          analyze_contract_pipeline oracle text
            = (.error e, [invStructure text, invLegal s, invNegotiation s l])) ∨
        (∃ n, oracle .negotiationStage (negotiationInstructions s l)
              (negotiationInput s l) = .ok n ∧
          analyze_contract_pipeline oracle text
            = (oracle .teamManager teamInstructions (mergeInput s l n),
               [invStructure text, invLegal s, invNegotiation s l,
                invTeam s l n])))))) := by
  rcases h1 : oracle .structureStage structureInstructions text with e | s
  · exact .inl ⟨e, rfl, by simp [analyze_contract_pipeline, h1]⟩
  · refine .inr ⟨s, rfl, ?_⟩
    rcases h2 : oracle .legalStage (legalInstructions s) s with e | l
    · exact .inl ⟨e, rfl, by simp [analyze_contract_pipeline, h1, h2]⟩
    · refine .inr ⟨l, rfl, ?_⟩
      rcases h3 : oracle .negotiationStage (negotiationInstructions s l)
          (negotiationInput s l) with e | n
      · exact .inl ⟨e, rfl, by simp [analyze_contract_pipeline, h1, h2, h3]⟩
      · exact .inr ⟨n, rfl, by simp [analyze_contract_pipeline, h1, h2, h3]⟩

/-- Explicit append form of the team-manager input. -/
lemma mergeInput_eq (s l n : List Char) :
    mergeInput s l n
      = "Merge the following outputs:\n".data
          ++ (s ++ ("\n\n".data ++ (l ++ ("\n\n".data ++ n)))) := by
  simp [mergeInput, List.intercalate, List.intersperse]

end PipelineLemmas


/-! ## Claims -/

/-- C1: for every document text `D` and chunk size `S > 0` (the source fixes
`S = 2000`), `get_docs` produces a finite ordered list of chunks whose
contents concatenated in order reproduce `D` exactly, whose length is
`⌈len(D)/S⌉` (written `(len(D) + S - 1) / S`), with every content of length
at most `S` and every content except possibly the last of length exactly
`S`. -/
theorem C1_chunk_coverage (D : List Char) (src : String) (S : Nat) (hS : 0 < S) :
    ((get_docs D src S).map contentOf).flatten = D ∧
    (get_docs D src S).length = (D.length + S - 1) / S ∧
    (∀ c ∈ get_docs D src S, (contentOf c).length ≤ S) ∧
    (∀ c ∈ (get_docs D src S).dropLast, (contentOf c).length = S) := by
  refine ⟨?_, get_docs_length hS D src, ?_, ?_⟩
  · rw [get_docs_map_content]
    exact pySlices_join hS D
  · intro c hc
    have h := List.mem_map_of_mem contentOf hc
    rw [get_docs_map_content] at h
    exact pySlices_length_le S D _ h
  · intro c hc
    have h : contentOf c ∈ ((get_docs D src S).map contentOf).dropLast := by
      rw [map_dropLast]
      exact List.mem_map_of_mem contentOf hc
    rw [get_docs_map_content] at h
    exact pySlices_dropLast hS D _ h

/-- Witness for C1 at `D = "abcde"`, `S = 2`: three chunks `"ab" "cd" "e"`. -/
theorem C1_chunk_coverage_witness :
    0 < 2 ∧
    ((get_docs "abcde".data "contract.pdf" 2).map contentOf).flatten = "abcde".data ∧
    (get_docs "abcde".data "contract.pdf" 2).length = ("abcde".data.length + 2 - 1) / 2 :=
  ⟨by decide, (C1_chunk_coverage "abcde".data "contract.pdf" 2 (by decide)).1,
    (C1_chunk_coverage "abcde".data "contract.pdf" 2 (by decide)).2.1⟩

/-- C6 as stated is false: the chunk dictionaries built by `get_docs` carry
only the keys `content` and `meta_data` (the latter holding the source name);
no `offset` field is present.  Concretely, the single chunk of the document
`"ab"` has no `offset` key. -/
theorem C6_counterexample :
    ¬ (∀ c ∈ get_docs "ab".data "contract.pdf" 2000, hasKey c "offset" = true) := by
  decide

/-- C6 (amended): every chunk produced by the Chunker carries exactly the two
fields `content` — the contiguous slice of the document text that starts at
position `k * S` for the `k`-th chunk — and `meta_data.source` — the
document provenance label.  No `offset` field is stored; a chunk offset is
determined only implicitly, by the chunk position in the list. -/
theorem C6_chunk_fields (D : List Char) (src : String) (S : Nat) (hS : 0 < S) :
    get_docs D src S
      = (List.range ((D.length + S - 1) / S)).map
          (fun k => mkChunk ((D.drop (k * S)).take S) src) ∧
    ∀ c ∈ get_docs D src S, dictKeys c = ["content", "meta_data"] := by
  constructor
  · unfold get_docs
    rw [pyRangeUp_zero_eq hS, List.map_map]
    rfl
  · intro c hc
    unfold get_docs at hc
    rcases List.mem_map.mp hc with ⟨i, _, rfl⟩
    simp

/-- Witness for the amended C6 at `D = "abc"`, `S = 2`. -/
theorem C6_chunk_fields_witness :
    0 < 2 ∧
    get_docs "abc".data "c.pdf" 2
      = (List.range (("abc".data.length + 2 - 1) / 2)).map
          (fun k => mkChunk (("abc".data.drop (k * 2)).take 2) "c.pdf") :=
  ⟨by decide, (C6_chunk_fields "abc".data "c.pdf" 2 (by decide)).1⟩

/-- C8: the delivery split of a report `R` into consecutive 4000-character
segments concatenates back to `R` exactly, and every segment has length at
most 4000. -/
theorem C8_delivery_split (R : List Char) :
    (splitMessage R).flatten = R ∧ ∀ seg ∈ splitMessage R, seg.length ≤ 4000 := by
  rw [splitMessage_eq_pySlices]
  exact ⟨pySlices_join (by norm_num) R, pySlices_length_le 4000 R⟩


/-- C3: if the Structure stage call raises (or times out), the pipeline makes
no further reasoning-collaborator call — the invocation log is exactly the
Structure call, so neither the Legal (risk) stage, nor the Negotiation stage,
nor the Team-manager merge is invoked — the run ends with the raised error,
and the handler delivers the failure message. -/
theorem C3_fail_fast (oracle : Oracle) (text e : List Char)
    (hfail : oracle .structureStage structureInstructions text = .error e) :
    analyze_contract_pipeline oracle text = (.error e, [invStructure text]) ∧
    telegramDeliver oracle text = ["Failed to analyze pdf: ".data ++ e] := by
  have hP : analyze_contract_pipeline oracle text = (.error e, [invStructure text]) := by
    unfold analyze_contract_pipeline
    rw [hfail]
  refine ⟨hP, ?_⟩
  unfold telegramDeliver
  rw [hP]

/-- Witness for C3: an oracle whose every call raises `"boom"`. -/
theorem C3_fail_fast_witness :
    ((fun _ _ _ => .error "boom".data : Oracle) .structureStage structureInstructions
        "doc".data = .error "boom".data) ∧
    analyze_contract_pipeline (fun _ _ _ => .error "boom".data : Oracle) "doc".data
        = (.error "boom".data, [invStructure "doc".data]) ∧
    telegramDeliver (fun _ _ _ => .error "boom".data : Oracle) "doc".data
        = ["Failed to analyze pdf: ".data ++ "boom".data] :=
  ⟨rfl,
    (C3_fail_fast (fun _ _ _ => .error "boom".data : Oracle) "doc".data "boom".data rfl).1,
    (C3_fail_fast (fun _ _ _ => .error "boom".data : Oracle) "doc".data "boom".data rfl).2⟩

/-- C5: within one pipeline run no stage name repeats in the invocation log —
each of Structure, Legal, Negotiation and Team-manager issues at most one
reasoning-collaborator call. -/
theorem C5_at_most_once (oracle : Oracle) (text : List Char) :
    ((analyze_contract_pipeline oracle text).2.map Invocation.stage).Nodup := by
  rcases pipeline_spec oracle text with ⟨e, h1, hP⟩ |
    ⟨s, h1, ⟨e, h2, hP⟩ | ⟨l, h2, ⟨e, h3, hP⟩ | ⟨n, h3, hP⟩⟩⟩ <;>
    rw [hP] <;>
    simp only [List.map_cons, List.map_nil, invStructure_stage, invLegal_stage,
      invNegotiation_stage, invTeam_stage] <;>
    decide

/-- C9: for every run each delivery channel receives either the segments of
the completed report (which concatenate exactly to the report) or one single
human-readable failure message carrying the underlying raised error — never a
mixture of successful-stage content and failure text. -/
theorem C9_report_or_failure (oracle : Oracle) (text : List Char)
    (teamResult : Except (List Char) (List Char)) :
    ((∃ r, (analyze_contract_pipeline oracle text).1 = .ok r ∧
        telegramDeliver oracle text = splitMessage r ∧ (splitMessage r).flatten = r) ∨
      (∃ e, (analyze_contract_pipeline oracle text).1 = .error e ∧
        telegramDeliver oracle text = ["Failed to analyze pdf: ".data ++ e])) ∧
    ((∃ r, teamResult = .ok r ∧
        whatsappDeliver teamResult = splitMessage r ∧ (splitMessage r).flatten = r) ∨
      (∃ e, teamResult = .error e ∧
        whatsappDeliver teamResult = ["Failed to analyze contract: ".data ++ e])) := by
  constructor
  · rcases hres : (analyze_contract_pipeline oracle text).1 with e | r
    · exact .inr ⟨e, rfl, by unfold telegramDeliver; rw [hres]⟩
    · refine .inl ⟨r, rfl, by unfold telegramDeliver; rw [hres], ?_⟩
      rw [splitMessage_eq_pySlices]
      exact pySlices_join (by norm_num) r
  · rcases teamResult with e | r
    · exact .inr ⟨e, rfl, rfl⟩
    · refine .inl ⟨r, rfl, rfl, ?_⟩
      rw [splitMessage_eq_pySlices]
      exact pySlices_join (by norm_num) r

/-- C10: a message with no attached file, or whose file name does not end in
`".pdf"` case-insensitively, is answered with a request for a PDF and causes
no PDF read and no reasoning-collaborator invocation: the handler emits
exactly one reply event and nothing else, in both the Telegram and the
WhatsApp channel. -/
theorem C10_non_pdf_guard (oracle : Oracle) (extracted : List Char)
    (teamResult : Except (List Char) (List Char)) :
    telegramReceive oracle none extracted
        = [.reply "Please upload a PDF contract for analysis.".data] ∧
    (∀ name, ".pdf".data.isSuffixOf (name.map Char.toLower) = false →
      telegramReceive oracle (some name) extracted
        = [.reply "Please upload a PDF file.".data]) ∧
    (∀ fileName hasFileBytes,
      (hasFileBytes && (match fileName with
        | some n => !n.isEmpty && ".pdf".data.isSuffixOf (n.map Char.toLower)
        | none => false)) = false →
      whatsappReceive teamResult fileName hasFileBytes extracted
        = [.reply "Please send a PDF contract for analysis.".data]) := by
  refine ⟨rfl, ?_, ?_⟩
  · intro name h
    unfold telegramReceive telegramHandleDocument
    simp [h]
  · intro fileName hasFileBytes h
    unfold whatsappReceive
    simp [h]

/-- Witness for C10: a `.txt` attachment on Telegram and a file-less WhatsApp
payload. -/
theorem C10_non_pdf_guard_witness :
    (".pdf".data.isSuffixOf ("contract.txt".data.map Char.toLower) = false) ∧
    telegramReceive (fun _ _ _ => .ok [] : Oracle) none []
        = [.reply "Please upload a PDF contract for analysis.".data] ∧
    telegramReceive (fun _ _ _ => .ok [] : Oracle) (some "contract.txt".data) []
        = [.reply "Please upload a PDF file.".data] ∧
    whatsappReceive (.ok []) none false []
        = [.reply "Please send a PDF contract for analysis.".data] :=
  ⟨by decide,
    (C10_non_pdf_guard (fun _ _ _ => .ok [] : Oracle) [] (.ok [])).1,
    (C10_non_pdf_guard (fun _ _ _ => .ok [] : Oracle) [] (.ok [])).2.1
      "contract.txt".data (by decide),
    (C10_non_pdf_guard (fun _ _ _ => .ok [] : Oracle) [] (.ok [])).2.2 none false rfl⟩


/-- C2 as stated is false: the Telegram channel performs no emptiness check —
`handle_document` passes the extracted text straight to
`analyze_contract_pipeline`, so for a PDF whose extracted text is empty the
Structure stage (and, the oracle answering, all four stages) is dispatched
rather than zero reasoning-collaborator invocations occurring.  No
`EmptyDocumentError` exists anywhere in the repository. -/
theorem C2_counterexample :
    Event.stageCall .structureStage ∈
      telegramReceive (fun _ _ _ => .ok "x".data : Oracle) (some "contract.pdf".data) [] := by
  decide

/-- C2 (amended): in the Streamlit channel a whitespace-only extracted text is
reported with `st.error` and the script stops with no reasoning invocation;
in the WhatsApp channel the handler replies `"Could not extract text from
PDF!"` after the PDF read, with no team invocation; the Telegram channel
performs no emptiness check and dispatches the Structure stage even on
whitespace-only text.  No channel raises an error named
`EmptyDocumentError`. -/
theorem C2_empty_input (extracted : List Char) (hws : pyStrip extracted = [])
    (teamResult : Except (List Char) (List Char)) (oracle : Oracle)
    (buttonPressed : Bool) (name : List Char)
    (hname : (!name.isEmpty && ".pdf".data.isSuffixOf (name.map Char.toLower)) = true) :
    streamlitRun teamResult extracted buttonPressed
        = [.reply "There is no content in the contract!".data] ∧
    Event.teamRun ∉ streamlitRun teamResult extracted buttonPressed ∧
    whatsappReceive teamResult (some name) true extracted
        = [.pdfRead, .reply "Could not extract text from PDF!".data] ∧
    Event.teamRun ∉ whatsappReceive teamResult (some name) true extracted ∧
    Event.stageCall .structureStage ∈ telegramReceive oracle (some name) extracted := by
  have hempty : (pyStrip extracted).isEmpty = true := by
    rw [hws]
    rfl
  have hstream : streamlitRun teamResult extracted buttonPressed
      = [.reply "There is no content in the contract!".data] := by
    unfold streamlitRun
    simp [hempty]
  have hwhats : whatsappReceive teamResult (some name) true extracted
      = [.pdfRead, .reply "Could not extract text from PDF!".data] := by
    unfold whatsappReceive
    simp [hname, hempty]
  refine ⟨hstream, ?_, hwhats, ?_, ?_⟩
  · rw [hstream]
    decide
  · rw [hwhats]
    decide
  · have hsuf : ".pdf".data.isSuffixOf (name.map Char.toLower) = true :=
      (Bool.and_eq_true _ _ |>.mp hname).2
    unfold telegramReceive telegramHandleDocument
    simp only [hsuf, if_true]
    rcases pipeline_spec oracle extracted with ⟨e, h1, hP⟩ |
      ⟨st, h1, ⟨e, h2, hP⟩ | ⟨l, h2, ⟨e, h3, hP⟩ | ⟨n, h3, hP⟩⟩⟩ <;>
      rw [hP] <;> simp

/-- Witness for the amended C2 at the empty extracted text and file name
`"a.pdf"`. -/
theorem C2_empty_input_witness :
    pyStrip [] = [] ∧
    (!"a.pdf".data.isEmpty && ".pdf".data.isSuffixOf ("a.pdf".data.map Char.toLower)) = true ∧
    streamlitRun (.ok []) [] true = [.reply "There is no content in the contract!".data] ∧
    whatsappReceive (.ok []) (some "a.pdf".data) true []
        = [.pdfRead, .reply "Could not extract text from PDF!".data] ∧
    Event.stageCall .structureStage ∈
      telegramReceive (fun _ _ _ => .ok [] : Oracle) (some "a.pdf".data) [] :=
  ⟨rfl, by decide,
    (C2_empty_input [] rfl (.ok []) (fun _ _ _ => .ok [] : Oracle) true
      "a.pdf".data (by decide)).1,
    (C2_empty_input [] rfl (.ok []) (fun _ _ _ => .ok [] : Oracle) true
      "a.pdf".data (by decide)).2.2.1,
    (C2_empty_input [] rfl (.ok []) (fun _ _ _ => .ok [] : Oracle) true
      "a.pdf".data (by decide)).2.2.2.2⟩


section SplitLemmas

lemma split_one {α : Type} {x1 inv : α} {pre post : List α}
    (h : [x1] = pre ++ inv :: post) : pre = [] ∧ inv = x1 := by
  cases pre with
  | nil => simp_all
  | cons a t => simp_all

lemma split_two {α : Type} {x1 x2 inv : α} {pre post : List α}
    (h : [x1, x2] = pre ++ inv :: post) :
    (pre = [] ∧ inv = x1) ∨ (pre = [x1] ∧ inv = x2) := by
  cases pre with
  | nil =>
    simp only [List.nil_append, List.cons.injEq] at h
    exact .inl ⟨rfl, h.1.symm⟩
  | cons a t =>
    simp only [List.cons_append, List.cons.injEq] at h
    obtain ⟨rfl, h⟩ := h
    obtain ⟨rfl, rfl⟩ := split_one h
    exact .inr ⟨rfl, rfl⟩

lemma split_three {α : Type} {x1 x2 x3 inv : α} {pre post : List α}
    (h : [x1, x2, x3] = pre ++ inv :: post) :
    (pre = [] ∧ inv = x1) ∨ (pre = [x1] ∧ inv = x2) ∨ (pre = [x1, x2] ∧ inv = x3) := by
  cases pre with
  | nil =>
    simp only [List.nil_append, List.cons.injEq] at h
    exact .inl ⟨rfl, h.1.symm⟩
  | cons a t =>
    simp only [List.cons_append, List.cons.injEq] at h
    obtain ⟨rfl, h⟩ := h
    rcases split_two h with ⟨rfl, rfl⟩ | ⟨rfl, rfl⟩
    · exact .inr (.inl ⟨rfl, rfl⟩)
    · exact .inr (.inr ⟨rfl, rfl⟩)

lemma split_four {α : Type} {x1 x2 x3 x4 inv : α} {pre post : List α}
    (h : [x1, x2, x3, x4] = pre ++ inv :: post) :
    (pre = [] ∧ inv = x1) ∨ (pre = [x1] ∧ inv = x2) ∨
    (pre = [x1, x2] ∧ inv = x3) ∨ (pre = [x1, x2, x3] ∧ inv = x4) := by
  cases pre with
  | nil =>
    simp only [List.nil_append, List.cons.injEq] at h
    exact .inl ⟨rfl, h.1.symm⟩
  | cons a t =>
    simp only [List.cons_append, List.cons.injEq] at h
    obtain ⟨rfl, h⟩ := h
    rcases split_three h with ⟨rfl, rfl⟩ | ⟨rfl, rfl⟩ | ⟨rfl, rfl⟩
    · exact .inr (.inl ⟨rfl, rfl⟩)
    · exact .inr (.inr (.inl ⟨rfl, rfl⟩))
    · exact .inr (.inr (.inr ⟨rfl, rfl⟩))

end SplitLemmas

/-- C4: for every split of the invocation log into earlier calls `pre`, a call
`inv` and later calls `post`, every declared dependency of the stage of `inv`
was already invoked in `pre` and its oracle call succeeded — no stage is
dispatched before all its dependencies have produced a Success result. -/
theorem C4_dependency_ordering (oracle : Oracle) (text : List Char)
    (pre : List Invocation) (inv : Invocation) (post : List Invocation)
    (hsplit : (analyze_contract_pipeline oracle text).2 = pre ++ inv :: post)
    (d : StageName) (hd : d ∈ deps inv.stage) :
    ∃ invd ∈ pre, invd.stage = d ∧
      ∃ out, oracle invd.stage invd.instructions invd.input = .ok out := by
  rcases pipeline_spec oracle text with ⟨e, h1, hP⟩ |
    ⟨s, h1, ⟨e, h2, hP⟩ | ⟨l, h2, ⟨e, h3, hP⟩ | ⟨n, h3, hP⟩⟩⟩ <;>
    simp only [hP] at hsplit
  · obtain ⟨rfl, rfl⟩ := split_one hsplit
    simp [deps] at hd
  · rcases split_two hsplit with ⟨rfl, rfl⟩ | ⟨rfl, rfl⟩
    · simp [deps] at hd
    · simp [deps] at hd
      subst hd
      exact ⟨invStructure text, by simp, rfl, s, h1⟩
  · rcases split_three hsplit with ⟨rfl, rfl⟩ | ⟨rfl, rfl⟩ | ⟨rfl, rfl⟩
    · simp [deps] at hd
    · simp [deps] at hd
      subst hd
      exact ⟨invStructure text, by simp, rfl, s, h1⟩
    · simp [deps] at hd
      rcases hd with rfl | rfl
      · exact ⟨invStructure text, by simp, rfl, s, h1⟩
      · exact ⟨invLegal s, by simp, rfl, l, h2⟩
  · rcases split_four hsplit with ⟨rfl, rfl⟩ | ⟨rfl, rfl⟩ | ⟨rfl, rfl⟩ | ⟨rfl, rfl⟩
    · simp [deps] at hd
    · simp [deps] at hd
      subst hd
      exact ⟨invStructure text, by simp, rfl, s, h1⟩
    · simp [deps] at hd
      rcases hd with rfl | rfl
      · exact ⟨invStructure text, by simp, rfl, s, h1⟩
      · exact ⟨invLegal s, by simp, rfl, l, h2⟩
    · simp [deps] at hd
      rcases hd with rfl | rfl | rfl
      · exact ⟨invStructure text, by simp, rfl, s, h1⟩
      · exact ⟨invLegal s, by simp, rfl, l, h2⟩
      · exact ⟨invNegotiation s l, by simp, rfl, n, h3⟩

/-- Witness for C4: with an oracle answering `"x"` everywhere, the Legal call
(second log entry) has its Structure dependency satisfied in the log before
it. -/
theorem C4_dependency_ordering_witness :
    ((analyze_contract_pipeline (fun _ _ _ => .ok "x".data : Oracle) "t".data).2
        = [invStructure "t".data] ++ invLegal "x".data ::
            [invNegotiation "x".data "x".data, invTeam "x".data "x".data "x".data]) ∧
    StageName.structureStage ∈ deps (invLegal "x".data).stage ∧
    ∃ invd ∈ [invStructure "t".data], invd.stage = .structureStage ∧
      ∃ out, (fun _ _ _ => .ok "x".data : Oracle) invd.stage invd.instructions invd.input
        = .ok out :=
  ⟨rfl, by decide,
    C4_dependency_ordering (fun _ _ _ => .ok "x".data : Oracle) "t".data
      [invStructure "t".data] (invLegal "x".data)
      [invNegotiation "x".data "x".data, invTeam "x".data "x".data "x".data]
      rfl .structureStage (by decide)⟩


section InvocationProjections

@[simp] lemma invStructure_instructions (t : List Char) :
    (invStructure t).instructions = structureInstructions := rfl

@[simp] lemma invStructure_input (t : List Char) : (invStructure t).input = t := rfl

@[simp] lemma invLegal_instructions (s : List Char) :
    (invLegal s).instructions = legalInstructions s := rfl

@[simp] lemma invLegal_input (s : List Char) : (invLegal s).input = s := rfl

@[simp] lemma invNegotiation_instructions (s l : List Char) :
    (invNegotiation s l).instructions = negotiationInstructions s l := rfl

@[simp] lemma invNegotiation_input (s l : List Char) :
    (invNegotiation s l).input = negotiationInput s l := rfl

@[simp] lemma invTeam_instructions (s l n : List Char) :
    (invTeam s l n).instructions = teamInstructions := rfl

@[simp] lemma invTeam_input (s l n : List Char) :
    (invTeam s l n).input = mergeInput s l n := rfl

end InvocationProjections

/-- C7: the material handed to a stage (its instruction text, which embeds the
dependency outputs through the f-string, followed by its run input, which is
the dependency outputs themselves) contains the verbatim content of every
declared dependency: the Legal (risk) call contains the Structure output
character for character, the Negotiation call contains the Structure and the
Legal outputs, the Team-manager call contains all three; and each stage calls
the reasoning collaborator at most once per run, exactly once on a successful
run.  (The verbatim copy is witnessed inside the run input — `dedent` applied
to the formatted instruction string may strip leading whitespace, but the
`arun` input is passed unmodified.) -/
theorem C7_verbatim_dependencies (oracle : Oracle) (text : List Char) :
    (∀ inv ∈ (analyze_contract_pipeline oracle text).2, inv.stage = .legalStage →
      ∃ s, oracle .structureStage structureInstructions text = .ok s ∧
        s <:+: (inv.instructions ++ inv.input)) ∧
    (∀ inv ∈ (analyze_contract_pipeline oracle text).2, inv.stage = .negotiationStage →
      ∃ s l, oracle .structureStage structureInstructions text = .ok s ∧
        oracle .legalStage (legalInstructions s) s = .ok l ∧
        s <:+: (inv.instructions ++ inv.input) ∧ l <:+: (inv.instructions ++ inv.input)) ∧
    (∀ inv ∈ (analyze_contract_pipeline oracle text).2, inv.stage = .teamManager →
      ∃ s l n, oracle .structureStage structureInstructions text = .ok s ∧
        oracle .legalStage (legalInstructions s) s = .ok l ∧
        oracle .negotiationStage (negotiationInstructions s l) (negotiationInput s l)
          = .ok n ∧
        s <:+: (inv.instructions ++ inv.input) ∧ l <:+: (inv.instructions ++ inv.input) ∧
        n <:+: (inv.instructions ++ inv.input)) ∧
    (∀ st : StageName,
      ((analyze_contract_pipeline oracle text).2.map Invocation.stage).count st ≤ 1) ∧
    (∀ r, (analyze_contract_pipeline oracle text).1 = .ok r →
      (analyze_contract_pipeline oracle text).2.map Invocation.stage
        = [.structureStage, .legalStage, .negotiationStage, .teamManager]) := by
  rcases pipeline_spec oracle text with ⟨e, h1, hP⟩ |
    ⟨s, h1, ⟨e, h2, hP⟩ | ⟨l, h2, ⟨e, h3, hP⟩ | ⟨n, h3, hP⟩⟩⟩ <;>
    simp only [hP] <;>
    refine ⟨?_, ?_, ?_, ?_, ?_⟩
  -- Structure call failed: the log is the Structure call alone.
  · intro inv hmem hstage
    simp only [List.mem_cons, List.not_mem_nil, or_false] at hmem
    subst hmem
    simp at hstage
  · intro inv hmem hstage
    simp only [List.mem_cons, List.not_mem_nil, or_false] at hmem
    subst hmem
    simp at hstage
  · intro inv hmem hstage
    simp only [List.mem_cons, List.not_mem_nil, or_false] at hmem
    subst hmem
    simp at hstage
  · intro st
    simp only [List.map_cons, List.map_nil, invStructure_stage]
    cases st <;> decide
  · intro r hres
    simp at hres
  -- Legal call failed: the log is the Structure and Legal calls.
  · intro inv hmem hstage
    simp only [List.mem_cons, List.not_mem_nil, or_false] at hmem
    rcases hmem with rfl | rfl
    · simp at hstage
    · exact ⟨s, h1, legalInstructions s, [], by simp⟩
  · intro inv hmem hstage
    simp only [List.mem_cons, List.not_mem_nil, or_false] at hmem
    rcases hmem with rfl | rfl <;> simp at hstage
  · intro inv hmem hstage
    simp only [List.mem_cons, List.not_mem_nil, or_false] at hmem
    rcases hmem with rfl | rfl <;> simp at hstage
  · intro st
    simp only [List.map_cons, List.map_nil, invStructure_stage, invLegal_stage]
    cases st <;> decide
  · intro r hres
    simp at hres
  -- Negotiation call failed: three calls in the log.
  · intro inv hmem hstage
    simp only [List.mem_cons, List.not_mem_nil, or_false] at hmem
    rcases hmem with rfl | rfl | rfl
    · simp at hstage
    · exact ⟨s, h1, legalInstructions s, [], by simp⟩
    · simp at hstage
  · intro inv hmem hstage
    simp only [List.mem_cons, List.not_mem_nil, or_false] at hmem
    rcases hmem with rfl | rfl | rfl
    · simp at hstage
    · simp at hstage
    · refine ⟨s, l, h1, h2, ?_, ?_⟩
      · exact ⟨negotiationInstructions s l, "\n".data ++ l, by simp [negotiationInput]⟩
      · exact ⟨negotiationInstructions s l ++ (s ++ "\n".data), [], by simp [negotiationInput]⟩
  · intro inv hmem hstage
    simp only [List.mem_cons, List.not_mem_nil, or_false] at hmem
    rcases hmem with rfl | rfl | rfl <;> simp at hstage
  · intro st
    simp only [List.map_cons, List.map_nil, invStructure_stage, invLegal_stage,
      invNegotiation_stage]
    cases st <;> decide
  · intro r hres
    simp at hres
  -- All three analysis calls succeeded: four calls in the log.
  · intro inv hmem hstage
    simp only [List.mem_cons, List.not_mem_nil, or_false] at hmem
    rcases hmem with rfl | rfl | rfl | rfl
    · simp at hstage
    · exact ⟨s, h1, legalInstructions s, [], by simp⟩
    · simp at hstage
    · simp at hstage
  · intro inv hmem hstage
    simp only [List.mem_cons, List.not_mem_nil, or_false] at hmem
    rcases hmem with rfl | rfl | rfl | rfl
    · simp at hstage
    · simp at hstage
    · refine ⟨s, l, h1, h2, ?_, ?_⟩
      · exact ⟨negotiationInstructions s l, "\n".data ++ l, by simp [negotiationInput]⟩
      · exact ⟨negotiationInstructions s l ++ (s ++ "\n".data), [], by simp [negotiationInput]⟩
    · simp at hstage
  · intro inv hmem hstage
    simp only [List.mem_cons, List.not_mem_nil, or_false] at hmem
    rcases hmem with rfl | rfl | rfl | rfl
    · simp at hstage
    · simp at hstage
    · simp at hstage
    · refine ⟨s, l, n, h1, h2, h3, ?_, ?_, ?_⟩
      · exact ⟨teamInstructions ++ "Merge the following outputs:\n".data,
          "\n\n".data ++ (l ++ ("\n\n".data ++ n)), by simp [mergeInput_eq]⟩
      · exact ⟨teamInstructions ++ "Merge the following outputs:\n".data
            ++ (s ++ "\n\n".data), "\n\n".data ++ n, by simp [mergeInput_eq]⟩
      · exact ⟨teamInstructions ++ "Merge the following outputs:\n".data
            ++ (s ++ ("\n\n".data ++ (l ++ "\n\n".data))), [], by simp [mergeInput_eq]⟩
  · intro st
    simp only [List.map_cons, List.map_nil, invStructure_stage, invLegal_stage,
      invNegotiation_stage, invTeam_stage]
    cases st <;> decide
  · intro r hres
    simp only [List.map_cons, List.map_nil, invStructure_stage, invLegal_stage,
      invNegotiation_stage, invTeam_stage]


/-- Witness for C7: with an oracle answering `"x"` everywhere the Legal call
is in the log and carries the Structure output verbatim. -/
theorem C7_verbatim_dependencies_witness :
    invLegal "x".data ∈
      (analyze_contract_pipeline (fun _ _ _ => .ok "x".data : Oracle) "t".data).2 ∧
    (invLegal "x".data).stage = .legalStage ∧
    ∃ s, (fun _ _ _ => .ok "x".data : Oracle) .structureStage structureInstructions
          "t".data = .ok s ∧
      s <:+: ((invLegal "x".data).instructions ++ (invLegal "x".data).input) :=
  ⟨List.Mem.tail _ (List.Mem.head _), rfl,
    (C7_verbatim_dependencies (fun _ _ _ => .ok "x".data : Oracle) "t".data).1
      (invLegal "x".data) (List.Mem.tail _ (List.Mem.head _)) rfl⟩


end ContractAnalyzer
